import Mathlib

/-!
# Cronyx core engine — shallow embedding and verification

This file embeds the scheduling/execution core of the Cronyx report engine
(`pkg/cronyx`: `engine.go`, `jobs.go`, `interfaces.go`) into Lean 4 and proves
or refutes the specified properties of the pipeline, the queue, the scheduler
hook, the stop path and the job-copy semantics.

Modelling conventions:
* Go `error` values are `GoError` (a message string, as produced by
  `errors.New` / `fmt.Errorf`); a Go function returning `error` returns
  `Option GoError` (`none` = `nil`).
* Go string maps are association lists; indexing a missing key yields the
  zero value `""`, as in Go.
* `context.Context` is opaque to the engine core (it is only passed through
  to adapters), so it is modelled by `Ctx := Unit`.
* Adapter calls are the observable actions of an execution; `Engine.execute`
  therefore returns, next to its result, the list of adapter invocations it
  performed, in order (an event trace).
* A call through a `nil` interface (a Go runtime panic) is a distinct
  outcome `ExecResult.crash`, separate from returning an error.
-/

/-- Go `time.Duration` (int64 nanoseconds). -/
abbrev Duration := Int

/-- A Go `error` value: carries the message produced by
`errors.New` / `fmt.Errorf`. -/
inductive GoError where
  | msg (s : String)
deriving DecidableEq, Repr

/-- `context.Context` as seen by the engine core: passed through, never
inspected. -/
abbrev Ctx := Unit

/-- `type DataSourceConfig map[string]string` (jobs.go). -/
abbrev DataSourceConfig := List (String × String)

/-- `type DeliveryConfig map[string]string` (jobs.go). -/
abbrev DeliveryConfig := List (String × String)

/-- Go map read `m[k]` on a `map[string]string`: zero value `""` when the
key is absent. -/
def mapGet (m : List (String × String)) (k : String) : String :=
  match m.lookup k with
  | some v => v
  | none => ""

/-- `DataPayload` (interfaces.go). Dynamic (`interface{}`) cell values are
modelled as strings; the engine core treats the payload as opaque. -/
structure DataPayload where
  Rows : List (List (String × String))
  Raw : List Nat
deriving DecidableEq, Repr

/-- `RenderedDoc` (interfaces.go); `Meta` values modelled as strings. -/
structure RenderedDoc where
  HTML : String
  Content : String
  Meta : List (String × String)
deriving DecidableEq, Repr

/-- `OutputFile` (interfaces.go); `Data []byte` modelled as a list of bytes. -/
structure OutputFile where
  Name : String
  Path : String
  Data : List Nat
deriving DecidableEq, Repr

/-- `ReportJob` (jobs.go). -/
structure ReportJob where
  ID : String
  Name : String
  TemplatePath : String
  DataSource : DataSourceConfig
  Outputs : List String
  Schedule : String
  Delivery : List DeliveryConfig
  Timeout : Duration
  Labels : List (String × String)
deriving DecidableEq, Repr

/-- `DataLoader` interface (interfaces.go): an implementation is its `Load`
behaviour. -/
structure DataLoader where
  Load : Ctx → DataSourceConfig → Except GoError DataPayload

/-- `TemplateRenderer` interface (interfaces.go). -/
structure TemplateRenderer where
  Render : Ctx → String → DataPayload → Except GoError RenderedDoc

/-- `OutputGenerator` interface (interfaces.go). -/
structure OutputGenerator where
  Generate : Ctx → RenderedDoc → String → Except GoError OutputFile

/-- `DeliveryAdapter` interface (interfaces.go); `Deliver` returns a Go
`error` (`none` = `nil`). -/
structure DeliveryAdapter where
  Deliver : Ctx → DeliveryConfig → List OutputFile → Option GoError

/-- The adapter registries of `Engine` (engine.go). The scheduler handle,
queue channel and stop channel are modelled separately (`JobQueue`,
`EngineState`) because they are runtime state, not lookup tables. -/
structure Engine where
  loaders : List (String × DataLoader)
  renderers : List (String × TemplateRenderer)
  outputs : List (String × OutputGenerator)
  deliveries : List (String × DeliveryAdapter)

/-- One observable adapter invocation performed by the pipeline, with its
outcome (`none` = returned `nil`). -/
inductive Event where
  | load (dsType : String) (err? : Option GoError)
  | render (tpl : String) (err? : Option GoError)
  | genOk (fmtName : String) (f : OutputFile)
  | genErr (fmtName : String) (er : GoError)
  | deliver (dtype : String) (files : List OutputFile) (err? : Option GoError)
deriving DecidableEq, Repr

/-- Pipeline stage of an event: Load = 0, Render = 1, Generate = 2,
Deliver = 3. -/
def Event.stage : Event → Nat
  | .load .. => 0
  | .render .. => 1
  | .genOk .. => 2
  | .genErr .. => 2
  | .deliver .. => 3

/-- The error returned by the invocation recorded in an event, if any. -/
def Event.errOf : Event → Option GoError
  | .load _ r => r
  | .render _ r => r
  | .genOk _ _ => none
  | .genErr _ er => some er
  | .deliver _ _ r => r

/-- The file produced by a successful output-generator invocation, if the
event is one. -/
def Event.genFile? : Event → Option OutputFile
  | .genOk _ f => some f
  | _ => none

/-- The format tag of an output-generator invocation, if the event is one. -/
def Event.genTag? : Event → Option String
  | .genOk f _ => some f
  | .genErr f _ => some f
  | _ => none

/-- The delivery type of a delivery invocation, if the event is one. -/
def Event.deliverTag? : Event → Option String
  | .deliver t _ _ => some t
  | _ => none

/-- Outcome of one pipeline execution: returned `nil`, returned an error, or
panicked (call through a `nil` interface). -/
inductive ExecResult where
  | ok
  | err (er : GoError)
  | crash
deriving DecidableEq, Repr

/-- `fmt.Errorf("no loader for type %s", dsType)` (engine.go). -/
def errNoLoader (t : String) : GoError := .msg ("no loader for type " ++ t)

/-- `fmt.Errorf("no output generator for %s", fmtName)` (engine.go). -/
def errNoOutput (f : String) : GoError := .msg ("no output generator for " ++ f)

/-- `fmt.Errorf("no delivery adapter for %s", dtype)` (engine.go). -/
def errNoDelivery (t : String) : GoError := .msg ("no delivery adapter for " ++ t)

/-- The output-generation loop of `Engine.execute` (engine.go step 4):
for each format tag, look up the generator (missing → error), invoke it
(error → fail), and append the produced file to `files`. Returns the loop's
outcome together with the invocations performed. -/
def genLoop (e : Engine) (ctx : Ctx) (rendered : RenderedDoc) :
    List String → List OutputFile → Except GoError (List OutputFile) × List Event
  | [], files => (.ok files, [])
  | fmtName :: rest, files =>
    match (e.outputs).lookup fmtName with
    | none => (.error (errNoOutput fmtName), [])
    | some outGen =>
      match outGen.Generate ctx rendered fmtName with
      | .error er => (.error er, [.genErr fmtName er])
      | .ok f =>
        let r := genLoop e ctx rendered rest (files ++ [f])
        (r.1, .genOk fmtName f :: r.2)

/-- The delivery loop of `Engine.execute` (engine.go step 5): for each
delivery config in order, look up the adapter by its `"type"` entry
(missing → error), invoke it with the complete file list, and stop at the
first error. -/
def deliverLoop (e : Engine) (ctx : Ctx) (files : List OutputFile) :
    List DeliveryConfig → Option GoError × List Event
  | [] => (none, [])
  | dCfg :: rest =>
    let dtype := mapGet dCfg "type"
    match (e.deliveries).lookup dtype with
    | none => (some (errNoDelivery dtype), [])
    | some adapter =>
      match adapter.Deliver ctx dCfg files with
      | some er => (some er, [.deliver dtype files (some er)])
      | none =>
        let r := deliverLoop e ctx files rest
        (r.1, .deliver dtype files none :: r.2)

/-- `Engine.execute` (engine.go): the four-stage pipeline.
1. resolve the loader from `DataSource["type"]` (missing → error);
2. load;
3. resolve the renderer under the fixed name `"markdown"` **without** a
   comma-ok check — a missing renderer is a `nil` interface and the `Render`
   call panics (`crash`);
4. generate one output file per entry of `Outputs`, in order;
5. run the deliveries in order, stopping at the first error.
The second component is the trace of adapter invocations performed. -/
def Engine.execute (e : Engine) (ctx : Ctx) (job : ReportJob) :
    ExecResult × List Event :=
  let dsType := mapGet job.DataSource "type"
  match (e.loaders).lookup dsType with
  | none => (.err (errNoLoader dsType), [])
  | some loader =>
    match loader.Load ctx job.DataSource with
    | .error er => (.err er, [.load dsType (some er)])
    | .ok data =>
      match (e.renderers).lookup "markdown" with
      | none => (.crash, [.load dsType none])
      | some renderer =>
        match renderer.Render ctx job.TemplatePath data with
        | .error er => (.err er, [.load dsType none, .render job.TemplatePath (some er)])
        | .ok rendered =>
          let g := genLoop e ctx rendered job.Outputs []
          match g.1 with
          | .error er => (.err er, .load dsType none :: .render job.TemplatePath none :: g.2)
          | .ok files =>
            let d := deliverLoop e ctx files job.Delivery
            match d.1 with
            | some er =>
              (.err er, .load dsType none :: .render job.TemplatePath none :: (g.2 ++ d.2))
            | none =>
              (.ok, .load dsType none :: .render job.TemplatePath none :: (g.2 ++ d.2))

/-- `Engine.TestExecute` (engine.go): wraps the caller's context with the
job's timeout and runs the same pipeline synchronously. The timeout wrapper
is invisible to the core model, so it is `execute` itself. -/
def Engine.testExecute (e : Engine) (ctx : Ctx) (job : ReportJob) :
    ExecResult × List Event :=
  e.execute ctx job

/-! ## Queue, scheduler hook, lifecycle and job registration (engine.go) -/

/-- The bounded job channel `jobQueue chan ReportJob` (capacity 100 in
`NewEngine`): its buffer and capacity. -/
structure JobQueue where
  buf : List ReportJob
  cap : Nat
deriving DecidableEq, Repr

/-- One Go buffered-channel send `q <- j` with no worker currently
receiving: it completes (appending `j`) exactly when the buffer has room;
`none` means the sending goroutine blocks — the send does not complete and
the queue is unchanged until a receiver frees space. -/
def chanSend (q : JobQueue) (j : ReportJob) : Option JobQueue :=
  if q.buf.length < q.cap then some { q with buf := q.buf ++ [j] } else none

/-- The body of the closure `AddCronJob` registers with the cron scheduler:
`func() { e.jobQueue <- job }` — a bare blocking send, executed on the timer
goroutine each time the trigger fires. -/
def cronFire (q : JobQueue) (j : ReportJob) : Option JobQueue :=
  chanSend q j

/-- `Engine.Enqueue` (engine.go): its entire body is `e.jobQueue <- job`,
a blocking send with no return value. -/
def Engine.enqueue (q : JobQueue) (j : ReportJob) : Option JobQueue :=
  chanSend q j

/-- `errors.New("empty schedule")` (engine.go, `AddCronJob`). -/
def errEmptySchedule : GoError := .msg "empty schedule"

/-- `Engine.AddCronJob` (engine.go): reject an empty schedule with
`errors.New("empty schedule")`, otherwise hand the schedule string to the
external cron library (`cronSched.AddFunc`) and return its parse result.
The robfig/cron parser is outside this repository, so it enters as the
parameter `cronParse` (`none` = the expression parses). Nothing else about
the job is inspected. -/
def Engine.addCronJob (cronParse : String → Option GoError) (job : ReportJob) :
    Option GoError :=
  if job.Schedule = "" then some errEmptySchedule
  else cronParse job.Schedule

/-- The state of one worker goroutine of the pool: at its `select` (idle)
or inside `e.execute` for a dequeued job. -/
inductive WorkerState where
  | idle
  | executing (job : ReportJob)
deriving DecidableEq, Repr

/-- The runtime state of the engine that `Start`/`Stop` and the worker loop
act on: the queue, whether `cronSched.Stop` has been called, whether
`stopCh` has been closed, and the worker states. -/
structure EngineState where
  queue : JobQueue
  schedStopped : Bool
  stopChClosed : Bool
  workers : List WorkerState
deriving DecidableEq, Repr

/-- The duration of the `select` in `Engine.Stop` between the cron
scheduler's completion context (done after `cronDoneMs`, if ever) and
`time.After(2 * time.Second)`: the grace actually waited, in milliseconds. -/
def stopGraceMs (cronDoneMs : Option Nat) : Nat :=
  match cronDoneMs with
  | some t => min t 2000
  | none => 2000

/-- `Engine.Stop` (engine.go): call `cronSched.Stop()`, wait for its context
with a 2-second cap, then `close(e.stopCh)` and return. The worker states
are not consulted or awaited: `Stop` returns without joining the workers. -/
def Engine.stop (s : EngineState) : EngineState :=
  { s with schedStopped := true, stopChClosed := true }

/-- One iteration of `Engine.workerLoop` (engine.go) for a single worker:
a worker inside `execute` finishes its job and returns to the `select`; an
idle worker either dequeues the next job or, when `stopCh` is closed and
nothing is dequeued, returns. The third component is `true` when the worker
exits its loop. -/
def workerLoopStep (stopClosed : Bool) (q : JobQueue) (w : WorkerState) :
    WorkerState × JobQueue × Bool :=
  match w with
  | .executing _ => (.idle, q, false)
  | .idle =>
    match q.buf with
    | j :: rest => (.executing j, { q with buf := rest }, false)
    | [] => if stopClosed then (.idle, q, true) else (.idle, q, false)

/-! ## Go reference semantics of the job struct (jobs.go)

`ReportJob` is sent over the channel by value, but its `DataSource`,
`Delivery` and `Labels` fields are Go maps (and `Delivery` a slice of
maps): reference types. The struct copy made by the channel send copies
the references, not the mapped contents. The mapped contents live in a
heap of string maps addressed by `Addr`. -/

abbrev Addr := Nat

/-- A heap of `map[string]string` objects; a map value in a struct field is
an address into it. -/
structure GoHeap where
  maps : List (List (String × String))
deriving DecidableEq, Repr

/-- `ReportJob` as laid out in memory: scalar fields inline, map-typed
fields (`DataSource`, `Labels`) and the slice of maps (`Delivery`) as
references. -/
structure ReportJobRef where
  ID : String
  Name : String
  TemplatePath : String
  DataSource : Addr
  Outputs : List String
  Schedule : String
  Delivery : List Addr
  Timeout : Duration
  Labels : Addr
deriving DecidableEq, Repr

/-- The struct copy performed by the channel send (`e.jobQueue <- job` in
`Enqueue` and in the `AddCronJob` closure): a field-wise copy, so map and
slice fields copy their references. -/
def sendJobCopy (j : ReportJobRef) : ReportJobRef :=
  { ID := j.ID, Name := j.Name, TemplatePath := j.TemplatePath,
    DataSource := j.DataSource, Outputs := j.Outputs, Schedule := j.Schedule,
    Delivery := j.Delivery, Timeout := j.Timeout, Labels := j.Labels }

/-- Go map update `m[k] = v` on the association-list representation:
replace the binding if present, else append. -/
def mapPut (m : List (String × String)) (k v : String) : List (String × String) :=
  match m with
  | [] => [(k, v)]
  | (k', v') :: rest => if k' = k then (k, v) :: rest else (k', v') :: mapPut rest k v

/-- An in-place mutation `m[k] = v` of the map object at address `a`. -/
def heapWrite (h : GoHeap) (a : Addr) (k v : String) : GoHeap :=
  { maps := h.maps.set a (mapPut (h.maps.getD a []) k v) }

/-- Dereference the map object at address `a`. -/
def readMap (h : GoHeap) (a : Addr) : List (String × String) :=
  h.maps.getD a []

/-! ## Concrete adapters, jobs and states used to instantiate the theorems -/

/-- A loader that succeeds with a one-row payload (scenario S1). -/
def csvLoader : DataLoader :=
  ⟨fun _ _ => .ok ⟨[[("name", "A"), ("value", "1")]], []⟩⟩

/-- A renderer that echoes the template path into the document. -/
def mdRenderer : TemplateRenderer :=
  ⟨fun _ tpl _ => .ok ⟨"H", tpl, []⟩⟩

/-- A generator producing one file named after the format tag. -/
def tagGen : OutputGenerator :=
  ⟨fun _ _ f => .ok ⟨"r." ++ f, "out/r." ++ f, [72]⟩⟩

/-- A delivery adapter that always succeeds. -/
def okDelivery : DeliveryAdapter := ⟨fun _ _ _ => none⟩

/-- A delivery adapter that always fails (scenario S6's `fail`). -/
def failDelivery : DeliveryAdapter := ⟨fun _ _ _ => some (.msg "send failed")⟩

/-- An engine with a csv loader, markdown renderer, html generator and the
`ok`/`fail`/`never` delivery adapters of scenario S6. -/
def wEngine : Engine :=
  ⟨[("csv", csvLoader)], [("markdown", mdRenderer)], [("html", tagGen)],
   [("ok", okDelivery), ("fail", failDelivery), ("never", okDelivery)]⟩

/-- Scenario S6: deliveries `ok`, `fail`, `never` in that order. -/
def wJobS6 : ReportJob :=
  ⟨"j1", "n", "t", [("type", "csv")], ["html"], "",
   [[("type", "ok")], [("type", "fail")], [("type", "never")]], 5000000000, []⟩

/-- The single file `tagGen` produces for the tag `"html"`. -/
def wHtmlFile : OutputFile := ⟨"r.html", "out/r.html", [72]⟩

/-- A fully successful job on `wEngine` (scenario S1). -/
def wJobOk : ReportJob :=
  ⟨"j2", "n", "t", [("type", "csv")], ["html"], "",
   [[("type", "ok")]], 5000000000, []⟩

/-- A stand-in for the external robfig/cron parser that accepts every
expression (as the real parser does on `"0 * * * * *"`). -/
def cronAccepts : String → Option GoError := fun _ => none

/-- A job with a parseable six-field schedule and `Timeout = 0`. -/
def jobT0 : ReportJob :=
  ⟨"j", "n", "t", [("type", "csv")], ["html"], "0 * * * * *",
   [[("type", "console")]], 0, []⟩

/-- A throwaway job for the queue scenarios. -/
def jobQ : ReportJob :=
  ⟨"q1", "n", "t", [("type", "csv")], ["html"], "", [[("type", "ok")]], 5, []⟩

/-- A second throwaway job. -/
def jobQ2 : ReportJob :=
  ⟨"q2", "n", "t", [("type", "csv")], ["html"], "", [[("type", "ok")]], 5, []⟩

/-- A queue of capacity 1 already holding a job: full. -/
def fullQ : JobQueue := ⟨[jobQ], 1⟩

/-- An empty queue of capacity 1. -/
def emptyQ : JobQueue := ⟨[], 1⟩

/-- An engine state with one worker in the middle of executing `jobQ`. -/
def busyState : EngineState := ⟨⟨[], 100⟩, false, false, [.executing jobQ]⟩

/-- An engine with no registered adapters at all. -/
def bareEngine : Engine := ⟨[], [], [], []⟩

/-- A job asking for the unregistered loader type `"sql"` (scenario S2). -/
def sqlJob : ReportJob :=
  ⟨"j3", "n", "t", [("type", "sql")], ["html"], "", [[("type", "ok")]], 5, []⟩

/-- An engine with a loader but no renderer registered under `"markdown"`. -/
def noRendererEngine : Engine := ⟨[("csv", csvLoader)], [], [], []⟩

/-- The payload `csvLoader` returns. -/
def csvPayload : DataPayload := ⟨[[("name", "A"), ("value", "1")]], []⟩

/-- A two-object heap: the `DataSource` map at address 0, the `Labels` map
at address 1. -/
def heap0 : GoHeap := ⟨[[("type", "csv")], [("team", "ops")]]⟩

/-- A job struct whose `DataSource` references address 0 and `Labels`
address 1 of `heap0`. -/
def jobRef0 : ReportJobRef :=
  ⟨"j", "n", "t", 0, ["html"], "", [], 5, 1⟩

/-! ## Characterization lemmas for the pipeline loops -/

/-- Every event recorded by the output loop is a generator invocation. -/
theorem genLoop_shape (e : Engine) (ctx : Ctx) (r : RenderedDoc) :
    ∀ (fmts : List String) (acc : List OutputFile) (ev : Event),
      ev ∈ (genLoop e ctx r fmts acc).2 →
      (∃ n f, ev = .genOk n f) ∨ (∃ n er, ev = .genErr n er) := by
  intro fmts
  induction fmts with
  | nil => intro acc ev h; simp [genLoop] at h
  | cons fmtName rest ih =>
    intro acc ev h
    rcases hl : List.lookup fmtName e.outputs with _ | og
    · simp [genLoop, hl] at h
    · rcases hg : og.Generate ctx r fmtName with er | f
      · simp [genLoop, hl, hg] at h
        exact Or.inr ⟨fmtName, er, h⟩
      · simp [genLoop, hl, hg] at h
        rcases h with h | h
        · exact Or.inl ⟨fmtName, f, h⟩
        · exact ih _ ev h

/-- A generator invocation that returned an error is the last event of the
output loop, everything before it succeeded, and the loop's result is that
error. -/
theorem genLoop_fail (e : Engine) (ctx : Ctx) (r : RenderedDoc) :
    ∀ (fmts : List String) (acc : List OutputFile) (ev : Event) (er : GoError),
      ev ∈ (genLoop e ctx r fmts acc).2 → ev.errOf = some er →
      (genLoop e ctx r fmts acc).1 = .error er ∧
      ∃ done, (genLoop e ctx r fmts acc).2 = done ++ [ev] ∧
        ∀ x ∈ done, x.errOf = none := by
  intro fmts
  induction fmts with
  | nil => intro acc ev er h _; simp [genLoop] at h
  | cons fmtName rest ih =>
    intro acc ev er h herr
    rcases hl : List.lookup fmtName e.outputs with _ | og
    · simp [genLoop, hl] at h
    · rcases hg : og.Generate ctx r fmtName with er0 | f
      · simp [genLoop, hl, hg] at h ⊢
        subst h
        simp [Event.errOf] at herr
        subst herr
        exact ⟨rfl, [], rfl, by simp⟩
      · simp [genLoop, hl, hg] at h ⊢
        rcases h with h | h
        · subst h; simp [Event.errOf] at herr
        · obtain ⟨h1, done, hd, hclean⟩ := ih (acc ++ [f]) ev er h herr
          refine ⟨h1, .genOk fmtName f :: done, by simp [hd], ?_⟩
          intro x hx
          rcases List.mem_cons.mp hx with hx | hx
          · subst hx; simp [Event.errOf]
          · exact hclean x hx

/-- When the output loop succeeds: the produced file list is the
accumulator followed by the files of its events, the invoked format tags
are exactly the declared tags in order, one file is produced per tag, and
every invocation succeeded. -/
theorem genLoop_ok (e : Engine) (ctx : Ctx) (r : RenderedDoc) :
    ∀ (fmts : List String) (acc files : List OutputFile),
      (genLoop e ctx r fmts acc).1 = .ok files →
      files = acc ++ (genLoop e ctx r fmts acc).2.filterMap Event.genFile? ∧
      (genLoop e ctx r fmts acc).2.filterMap Event.genTag? = fmts ∧
      ((genLoop e ctx r fmts acc).2.filterMap Event.genFile?).length = fmts.length ∧
      ∀ ev ∈ (genLoop e ctx r fmts acc).2, ev.errOf = none := by
  intro fmts
  induction fmts with
  | nil =>
    intro acc files h
    simp [genLoop] at h ⊢
    simp [h]
  | cons fmtName rest ih =>
    intro acc files h
    rcases hl : List.lookup fmtName e.outputs with _ | og
    · simp [genLoop, hl] at h
    · rcases hg : og.Generate ctx r fmtName with er0 | f
      · simp [genLoop, hl, hg] at h
      · simp [genLoop, hl, hg] at h ⊢
        obtain ⟨h1, h2, h3, h4⟩ := ih (acc ++ [f]) files h
        exact ⟨by simpa [Event.genFile?] using h1,
               by simp [Event.genTag?, h2],
               by simp [Event.genFile?, h3],
               by simp [Event.errOf], h4⟩

/-- Every event recorded by the delivery loop is a delivery invocation
carrying the complete file list of the execution. -/
theorem deliverLoop_shape (e : Engine) (ctx : Ctx) (files : List OutputFile) :
    ∀ (cfgs : List DeliveryConfig) (ev : Event),
      ev ∈ (deliverLoop e ctx files cfgs).2 →
      ∃ t rr, ev = .deliver t files rr := by
  intro cfgs
  induction cfgs with
  | nil => intro ev h; simp [deliverLoop] at h
  | cons dCfg rest ih =>
    intro ev h
    rcases hl : List.lookup (mapGet dCfg "type") e.deliveries with _ | adapter
    · simp [deliverLoop, hl] at h
    · rcases hd : adapter.Deliver ctx dCfg files with _ | er
      · simp [deliverLoop, hl, hd] at h
        rcases h with h | h
        · exact ⟨mapGet dCfg "type", none, h⟩
        · exact ih ev h
      · simp [deliverLoop, hl, hd] at h
        exact ⟨mapGet dCfg "type", some er, h⟩

/-- A delivery invocation that returned an error is the last event of the
delivery loop, every invocation before it succeeded, the loop's result is
that error, and the invoked delivery types are exactly the `"type"` entries
of a strict prefix of the declared configs, ending at the failing one. -/
theorem deliverLoop_fail (e : Engine) (ctx : Ctx) (files : List OutputFile) :
    ∀ (cfgs : List DeliveryConfig) (t : String) (er : GoError),
      Event.deliver t files (some er) ∈ (deliverLoop e ctx files cfgs).2 →
      (deliverLoop e ctx files cfgs).1 = some er ∧
      (∃ done, (deliverLoop e ctx files cfgs).2 = done ++ [Event.deliver t files (some er)] ∧
        ∀ x ∈ done, x.errOf = none) ∧
      ∃ k, k < cfgs.length ∧
        (deliverLoop e ctx files cfgs).2.filterMap Event.deliverTag? =
          (cfgs.take (k + 1)).map (fun c => mapGet c "type") := by
  intro cfgs
  induction cfgs with
  | nil => intro t er h; simp [deliverLoop] at h
  | cons dCfg rest ih =>
    intro t er h
    rcases hl : List.lookup (mapGet dCfg "type") e.deliveries with _ | adapter
    · simp [deliverLoop, hl] at h
    · rcases hd : adapter.Deliver ctx dCfg files with _ | er0
      · simp [deliverLoop, hl, hd] at h ⊢
        obtain ⟨h1, ⟨done, hdone, hclean⟩, k, hk, htags⟩ := ih t er h
        refine ⟨h1, ⟨.deliver (mapGet dCfg "type") files none :: done, by simp [hdone], ?_⟩,
                k + 1, by omega, ?_⟩
        · intro x hx
          rcases List.mem_cons.mp hx with hx | hx
          · subst hx; simp [Event.errOf]
          · exact hclean x hx
        · simp [Event.deliverTag?, htags, List.take_succ_cons]
      · simp [deliverLoop, hl, hd] at h ⊢
        obtain ⟨ht, her⟩ := h
        subst ht; subst her
        exact ⟨rfl, ⟨[], rfl, by simp⟩, 0, by omega, by simp [Event.deliverTag?]⟩

/-- When the delivery loop succeeds, its trace is exactly one successful
delivery invocation per declared config, in declared order, each carrying
the complete file list. -/
theorem deliverLoop_ok (e : Engine) (ctx : Ctx) (files : List OutputFile) :
    ∀ (cfgs : List DeliveryConfig),
      (deliverLoop e ctx files cfgs).1 = none →
      (deliverLoop e ctx files cfgs).2 =
        cfgs.map (fun c => Event.deliver (mapGet c "type") files none) := by
  intro cfgs
  induction cfgs with
  | nil => intro _; simp [deliverLoop]
  | cons dCfg rest ih =>
    intro h
    rcases hl : List.lookup (mapGet dCfg "type") e.deliveries with _ | adapter
    · simp [deliverLoop, hl] at h
    · rcases hd : adapter.Deliver ctx dCfg files with _ | er0
      · simp [deliverLoop, hl, hd] at h ⊢
        exact ih h
      · simp [deliverLoop, hl, hd] at h

/-- Complete case analysis of `Engine.execute`: the seven ways a run can
go, each with the exact result and trace the code produces. -/
theorem execute_char (e : Engine) (ctx : Ctx) (job : ReportJob) :
    (List.lookup (mapGet job.DataSource "type") e.loaders = none ∧
      e.execute ctx job = (.err (errNoLoader (mapGet job.DataSource "type")), [])) ∨
    (∃ loader er, List.lookup (mapGet job.DataSource "type") e.loaders = some loader ∧
      loader.Load ctx job.DataSource = .error er ∧
      e.execute ctx job = (.err er, [.load (mapGet job.DataSource "type") (some er)])) ∨
    (∃ loader data, List.lookup (mapGet job.DataSource "type") e.loaders = some loader ∧
      loader.Load ctx job.DataSource = .ok data ∧
      List.lookup "markdown" e.renderers = none ∧
      e.execute ctx job = (.crash, [.load (mapGet job.DataSource "type") none])) ∨
    (∃ loader data renderer er,
      List.lookup (mapGet job.DataSource "type") e.loaders = some loader ∧
      loader.Load ctx job.DataSource = .ok data ∧
      List.lookup "markdown" e.renderers = some renderer ∧
      renderer.Render ctx job.TemplatePath data = .error er ∧
      e.execute ctx job = (.err er,
        [.load (mapGet job.DataSource "type") none, .render job.TemplatePath (some er)])) ∨
    (∃ loader data renderer rendered er,
      List.lookup (mapGet job.DataSource "type") e.loaders = some loader ∧
      loader.Load ctx job.DataSource = .ok data ∧
      List.lookup "markdown" e.renderers = some renderer ∧
      renderer.Render ctx job.TemplatePath data = .ok rendered ∧
      (genLoop e ctx rendered job.Outputs []).1 = .error er ∧
      e.execute ctx job = (.err er,
        .load (mapGet job.DataSource "type") none :: .render job.TemplatePath none ::
          (genLoop e ctx rendered job.Outputs []).2)) ∨
    (∃ loader data renderer rendered files er,
      List.lookup (mapGet job.DataSource "type") e.loaders = some loader ∧
      loader.Load ctx job.DataSource = .ok data ∧
      List.lookup "markdown" e.renderers = some renderer ∧
      renderer.Render ctx job.TemplatePath data = .ok rendered ∧
      (genLoop e ctx rendered job.Outputs []).1 = .ok files ∧
      (deliverLoop e ctx files job.Delivery).1 = some er ∧
      e.execute ctx job = (.err er,
        .load (mapGet job.DataSource "type") none :: .render job.TemplatePath none ::
          ((genLoop e ctx rendered job.Outputs []).2 ++
            (deliverLoop e ctx files job.Delivery).2))) ∨
    (∃ loader data renderer rendered files,
      List.lookup (mapGet job.DataSource "type") e.loaders = some loader ∧
      loader.Load ctx job.DataSource = .ok data ∧
      List.lookup "markdown" e.renderers = some renderer ∧
      renderer.Render ctx job.TemplatePath data = .ok rendered ∧
      (genLoop e ctx rendered job.Outputs []).1 = .ok files ∧
      (deliverLoop e ctx files job.Delivery).1 = none ∧
      e.execute ctx job = (.ok,
        .load (mapGet job.DataSource "type") none :: .render job.TemplatePath none ::
          ((genLoop e ctx rendered job.Outputs []).2 ++
            (deliverLoop e ctx files job.Delivery).2))) := by
  rcases h1 : List.lookup (mapGet job.DataSource "type") e.loaders with _ | loader
  · exact Or.inl ⟨rfl, by simp [Engine.execute, h1]⟩
  rcases h2 : loader.Load ctx job.DataSource with er | data
  · exact Or.inr (Or.inl ⟨loader, er, rfl, h2, by simp [Engine.execute, h1, h2]⟩)
  rcases h3 : List.lookup "markdown" e.renderers with _ | renderer
  · exact Or.inr (Or.inr (Or.inl
      ⟨loader, data, rfl, h2, rfl, by simp [Engine.execute, h1, h2, h3]⟩))
  rcases h4 : renderer.Render ctx job.TemplatePath data with er | rendered
  · exact Or.inr (Or.inr (Or.inr (Or.inl
      ⟨loader, data, renderer, er, rfl, h2, rfl, h4,
        by simp [Engine.execute, h1, h2, h3, h4]⟩)))
  rcases h5 : (genLoop e ctx rendered job.Outputs []).1 with er | files
  · exact Or.inr (Or.inr (Or.inr (Or.inr (Or.inl
      ⟨loader, data, renderer, rendered, er, rfl, h2, rfl, h4, h5,
        by simp [Engine.execute, h1, h2, h3, h4, h5]⟩))))
  rcases h6 : (deliverLoop e ctx files job.Delivery).1 with _ | er
  · exact Or.inr (Or.inr (Or.inr (Or.inr (Or.inr (Or.inr
      ⟨loader, data, renderer, rendered, files, rfl, h2, rfl, h4, h5, h6,
        by simp [Engine.execute, h1, h2, h3, h4, h5, h6]⟩)))))
  · exact Or.inr (Or.inr (Or.inr (Or.inr (Or.inr (Or.inl
      ⟨loader, data, renderer, rendered, files, er, rfl, h2, rfl, h4, h5, h6,
        by simp [Engine.execute, h1, h2, h3, h4, h5, h6]⟩)))))

/-- Every output-loop event sits in stage 2. -/
theorem genLoop_stage_two (e : Engine) (ctx : Ctx) (r : RenderedDoc)
    (fmts : List String) (acc : List OutputFile) :
    ∀ ev ∈ (genLoop e ctx r fmts acc).2, ev.stage = 2 := by
  intro ev hev
  rcases genLoop_shape e ctx r fmts acc ev hev with ⟨n, f, h⟩ | ⟨n, er, h⟩ <;>
    subst h <;> rfl

/-- Every delivery-loop event sits in stage 3. -/
theorem deliverLoop_stage_three (e : Engine) (ctx : Ctx) (files : List OutputFile)
    (cfgs : List DeliveryConfig) :
    ∀ ev ∈ (deliverLoop e ctx files cfgs).2, ev.stage = 3 := by
  intro ev hev
  obtain ⟨t, rr, h⟩ := deliverLoop_shape e ctx files cfgs ev hev
  subst h; rfl

/-- When the delivery loop succeeds, every one of its invocations did. -/
theorem deliverLoop_ok_clean (e : Engine) (ctx : Ctx) (files : List OutputFile)
    (cfgs : List DeliveryConfig) (h : (deliverLoop e ctx files cfgs).1 = none) :
    ∀ ev ∈ (deliverLoop e ctx files cfgs).2, ev.errOf = none := by
  intro ev hev
  rw [deliverLoop_ok e ctx files cfgs h] at hev
  simp only [List.mem_map] at hev
  obtain ⟨c, -, hc⟩ := hev
  rw [← hc]; rfl

/-! ## The claims -/

/-- C1: for every job, the pipeline performs the four stages Load, Render,
Generate, Deliver in strict order (the trace of adapter invocations is
monotone in stage number), and the first error returned at any stage
terminates the execution: an invocation that returned an error is the last
invocation of the trace and its error is the result of the whole run — no
later stage runs. -/
theorem execute_stage_order_and_first_error_terminates
    (e : Engine) (ctx : Ctx) (job : ReportJob) :
    ((e.execute ctx job).2).Pairwise (fun a b => a.stage ≤ b.stage) ∧
    ∀ ev ∈ (e.execute ctx job).2, ∀ er, ev.errOf = some er →
      (∃ done, (e.execute ctx job).2 = done ++ [ev]) ∧
      (e.execute ctx job).1 = .err er := by
  rcases execute_char e ctx job with
      ⟨-, hx⟩ |
      ⟨loader, er0, -, -, hx⟩ |
      ⟨loader, data, -, -, -, hx⟩ |
      ⟨loader, data, renderer, er0, -, -, -, -, hx⟩ |
      ⟨loader, data, renderer, rendered, er0, -, -, -, -, h5, hx⟩ |
      ⟨loader, data, renderer, rendered, files, er0, -, -, -, -, h5, h6, hx⟩ |
      ⟨loader, data, renderer, rendered, files, -, -, -, -, h5, h6, hx⟩
  · rw [hx]; exact ⟨by simp, by simp⟩
  · rw [hx]
    refine ⟨by simp, ?_⟩
    intro ev hev er herr
    simp at hev
    subst hev
    simp [Event.errOf] at herr
    subst herr
    exact ⟨⟨[], rfl⟩, rfl⟩
  · rw [hx]
    refine ⟨by simp, ?_⟩
    intro ev hev er herr
    simp at hev
    subst hev
    simp [Event.errOf] at herr
  · rw [hx]
    refine ⟨by simp [List.pairwise_cons, Event.stage], ?_⟩
    intro ev hev er herr
    simp at hev
    rcases hev with hev | hev
    · subst hev; simp [Event.errOf] at herr
    · subst hev
      simp [Event.errOf] at herr
      subst herr
      exact ⟨⟨[Event.load (mapGet job.DataSource "type") none], rfl⟩, rfl⟩
  · rw [hx]
    constructor
    · refine List.pairwise_cons.mpr ⟨fun b _ => Nat.zero_le _,
        List.pairwise_cons.mpr ⟨?_, ?_⟩⟩
      · intro b hb
        rw [genLoop_stage_two e ctx rendered job.Outputs [] b hb]
        simp [Event.stage]
      · refine List.pairwise_of_forall_mem_list ?_
        intro a ha b hb
        rw [genLoop_stage_two e ctx rendered job.Outputs [] a ha,
            genLoop_stage_two e ctx rendered job.Outputs [] b hb]
    · intro ev hev er herr
      simp at hev
      rcases hev with hev | hev | hev
      · subst hev; simp [Event.errOf] at herr
      · subst hev; simp [Event.errOf] at herr
      · obtain ⟨hres, done, hdone, -⟩ :=
          genLoop_fail e ctx rendered job.Outputs [] ev er hev herr
        rw [h5] at hres
        injection hres with h'
        subst h'
        refine ⟨⟨Event.load (mapGet job.DataSource "type") none ::
          Event.render job.TemplatePath none :: done, ?_⟩, rfl⟩
        simp [hdone]
  · rw [hx]
    obtain ⟨hfeq, htags, hlen, hcleang⟩ := genLoop_ok e ctx rendered job.Outputs [] files h5
    constructor
    · refine List.pairwise_cons.mpr ⟨fun b _ => Nat.zero_le _,
        List.pairwise_cons.mpr ⟨?_, ?_⟩⟩
      · intro b hb
        rcases List.mem_append.mp hb with hb | hb
        · rw [genLoop_stage_two e ctx rendered job.Outputs [] b hb]
          simp [Event.stage]
        · rw [deliverLoop_stage_three e ctx files job.Delivery b hb]
          simp [Event.stage]
      · rw [List.pairwise_append]
        refine ⟨List.pairwise_of_forall_mem_list ?_,
          List.pairwise_of_forall_mem_list ?_, ?_⟩
        · intro a ha b hb
          rw [genLoop_stage_two e ctx rendered job.Outputs [] a ha,
              genLoop_stage_two e ctx rendered job.Outputs [] b hb]
        · intro a ha b hb
          rw [deliverLoop_stage_three e ctx files job.Delivery a ha,
              deliverLoop_stage_three e ctx files job.Delivery b hb]
        · intro a ha b hb
          rw [genLoop_stage_two e ctx rendered job.Outputs [] a ha,
              deliverLoop_stage_three e ctx files job.Delivery b hb]
          omega
    · intro ev hev er herr
      simp at hev
      rcases hev with hev | hev | hev | hev
      · subst hev; simp [Event.errOf] at herr
      · subst hev; simp [Event.errOf] at herr
      · rw [hcleang ev hev] at herr; cases herr
      · obtain ⟨t', rr, hev_eq⟩ := deliverLoop_shape e ctx files job.Delivery ev hev
        subst hev_eq
        simp only [Event.errOf] at herr
        subst herr
        obtain ⟨hres, ⟨done, hdone, -⟩, -⟩ :=
          deliverLoop_fail e ctx files job.Delivery t' er hev
        rw [h6] at hres
        injection hres with h'
        subst h'
        refine ⟨⟨Event.load (mapGet job.DataSource "type") none ::
          Event.render job.TemplatePath none ::
          ((genLoop e ctx rendered job.Outputs []).2 ++ done), ?_⟩, rfl⟩
        simp [hdone, List.append_assoc]
  · rw [hx]
    obtain ⟨hfeq, htags, hlen, hcleang⟩ := genLoop_ok e ctx rendered job.Outputs [] files h5
    constructor
    · refine List.pairwise_cons.mpr ⟨fun b _ => Nat.zero_le _,
        List.pairwise_cons.mpr ⟨?_, ?_⟩⟩
      · intro b hb
        rcases List.mem_append.mp hb with hb | hb
        · rw [genLoop_stage_two e ctx rendered job.Outputs [] b hb]
          simp [Event.stage]
        · rw [deliverLoop_stage_three e ctx files job.Delivery b hb]
          simp [Event.stage]
      · rw [List.pairwise_append]
        refine ⟨List.pairwise_of_forall_mem_list ?_,
          List.pairwise_of_forall_mem_list ?_, ?_⟩
        · intro a ha b hb
          rw [genLoop_stage_two e ctx rendered job.Outputs [] a ha,
              genLoop_stage_two e ctx rendered job.Outputs [] b hb]
        · intro a ha b hb
          rw [deliverLoop_stage_three e ctx files job.Delivery a ha,
              deliverLoop_stage_three e ctx files job.Delivery b hb]
        · intro a ha b hb
          rw [genLoop_stage_two e ctx rendered job.Outputs [] a ha,
              deliverLoop_stage_three e ctx files job.Delivery b hb]
          omega
    · intro ev hev er herr
      simp at hev
      rcases hev with hev | hev | hev | hev
      · subst hev; simp [Event.errOf] at herr
      · subst hev; simp [Event.errOf] at herr
      · rw [hcleang ev hev] at herr; cases herr
      · rw [deliverLoop_ok_clean e ctx files job.Delivery h6 ev hev] at herr
        cases herr

/-- Witness for C1: in scenario S6 the failing `fail` delivery is the last
invocation of the trace and its error is the run's result. -/
theorem execute_stage_order_and_first_error_terminates_witness :
    (∃ done, (wEngine.execute () wJobS6).2 =
      done ++ [Event.deliver "fail" [wHtmlFile] (some (.msg "send failed"))]) ∧
    (wEngine.execute () wJobS6).1 = .err (.msg "send failed") :=
  (execute_stage_order_and_first_error_terminates wEngine () wJobS6).2
    (Event.deliver "fail" [wHtmlFile] (some (.msg "send failed"))) (by decide)
    (.msg "send failed") (by decide)

/-- C6: for every successful execution, exactly one output file is produced
per entry of `J.Outputs`, in declared order (the generator invocations'
tags are exactly `J.Outputs` and produce one file each), and the same file
list, in that order, is the one passed to every delivery invocation of the
execution. -/
theorem execute_ok_output_count_order_and_shared_files
    (e : Engine) (ctx : Ctx) (job : ReportJob)
    (h : (e.execute ctx job).1 = .ok) :
    ((e.execute ctx job).2.filterMap Event.genFile?).length = job.Outputs.length ∧
    (e.execute ctx job).2.filterMap Event.genTag? = job.Outputs ∧
    ∀ t fs rr, Event.deliver t fs rr ∈ (e.execute ctx job).2 →
      fs = (e.execute ctx job).2.filterMap Event.genFile? := by
  rcases execute_char e ctx job with
      ⟨-, hx⟩ |
      ⟨loader, er0, -, -, hx⟩ |
      ⟨loader, data, -, -, -, hx⟩ |
      ⟨loader, data, renderer, er0, -, -, -, -, hx⟩ |
      ⟨loader, data, renderer, rendered, er0, -, -, -, -, h5, hx⟩ |
      ⟨loader, data, renderer, rendered, files, er0, -, -, -, -, h5, h6, hx⟩ |
      ⟨loader, data, renderer, rendered, files, -, -, -, -, h5, h6, hx⟩ <;>
    rw [hx] at h ⊢ <;> simp at h
  obtain ⟨hfeq, htags, hlen, -⟩ := genLoop_ok e ctx rendered job.Outputs [] files h5
  have hd2 := deliverLoop_ok e ctx files job.Delivery h6
  have hdf : (deliverLoop e ctx files job.Delivery).2.filterMap Event.genFile? = [] := by
    rw [hd2]; simp [Event.genFile?]
  have hdt : (deliverLoop e ctx files job.Delivery).2.filterMap Event.genTag? = [] := by
    rw [hd2]; simp [Event.genTag?]
  refine ⟨?_, ?_, ?_⟩
  · simp [Event.genFile?, List.filterMap_append, hdf, hlen]
  · simp [Event.genFile?, Event.genTag?, List.filterMap_append, hdt, htags]
  · intro t fs rr hmem
    simp at hmem
    rcases hmem with hmem | hmem
    · obtain ⟨n, f, hc⟩ | ⟨n, er, hc⟩ :=
        genLoop_shape e ctx rendered job.Outputs [] _ hmem <;> simp at hc
    · rw [hd2] at hmem
      simp at hmem
      obtain ⟨c, -, -, hfs, -⟩ := hmem
      rw [← hfs]
      simpa [Event.genFile?, List.filterMap_append, hdf] using hfeq

/-- Witness for C6: the fully successful scenario-S1 job on `wEngine`. -/
theorem execute_ok_output_count_order_and_shared_files_witness :
    ((wEngine.execute () wJobOk).2.filterMap Event.genFile?).length = wJobOk.Outputs.length ∧
    (wEngine.execute () wJobOk).2.filterMap Event.genTag? = wJobOk.Outputs ∧
    ∀ t fs rr, Event.deliver t fs rr ∈ (wEngine.execute () wJobOk).2 →
      fs = (wEngine.execute () wJobOk).2.filterMap Event.genFile? :=
  execute_ok_output_count_order_and_shared_files wEngine () wJobOk (by decide)

/-- C7: if a delivery invocation of an execution returned an error, the
whole job fails with that error, everything invoked before it succeeded and
nothing runs after it, and the delivery invocations performed are exactly
the `"type"` entries of the declared prefix of `J.Delivery` up to and
including the failing one — every delivery after the failing one is never
invoked. -/
theorem execute_delivery_failure_short_circuits
    (e : Engine) (ctx : Ctx) (job : ReportJob) (t : String)
    (fs : List OutputFile) (er : GoError)
    (h : Event.deliver t fs (some er) ∈ (e.execute ctx job).2) :
    (e.execute ctx job).1 = .err er ∧
    (∃ done, (e.execute ctx job).2 = done ++ [Event.deliver t fs (some er)] ∧
      ∀ x ∈ done, x.errOf = none) ∧
    ∃ k, k < job.Delivery.length ∧
      (e.execute ctx job).2.filterMap Event.deliverTag? =
        (job.Delivery.take (k + 1)).map (fun c => mapGet c "type") := by
  rcases execute_char e ctx job with
      ⟨-, hx⟩ |
      ⟨loader, er0, -, -, hx⟩ |
      ⟨loader, data, -, -, -, hx⟩ |
      ⟨loader, data, renderer, er0, -, -, -, -, hx⟩ |
      ⟨loader, data, renderer, rendered, er0, -, -, -, -, h5, hx⟩ |
      ⟨loader, data, renderer, rendered, files, er0, -, -, -, -, h5, h6, hx⟩ |
      ⟨loader, data, renderer, rendered, files, -, -, -, -, h5, h6, hx⟩ <;>
    rw [hx] at h ⊢ <;> simp at h
  · rcases genLoop_shape e ctx rendered job.Outputs [] _ h with ⟨n, f, hc⟩ | ⟨n, er1, hc⟩ <;>
      simp at hc
  · obtain ⟨hfeq, htags, hlen, hcleang⟩ := genLoop_ok e ctx rendered job.Outputs [] files h5
    have hgt : (genLoop e ctx rendered job.Outputs []).2.filterMap Event.deliverTag? = [] := by
      rw [List.filterMap_eq_nil_iff]
      intro a ha
      rcases genLoop_shape e ctx rendered job.Outputs [] a ha with ⟨n, f, hc⟩ | ⟨n, er1, hc⟩ <;>
        subst hc <;> rfl
    rcases h with h | h
    · rcases genLoop_shape e ctx rendered job.Outputs [] _ h with ⟨n, f, hc⟩ | ⟨n, er1, hc⟩ <;>
        simp at hc
    · obtain ⟨t', rr, hev⟩ := deliverLoop_shape e ctx files job.Delivery _ h
      injection hev with h1 h2 h3
      subst h1
      subst h2
      subst h3
      obtain ⟨hres, ⟨done, hdone, hclean⟩, k, hk, htagsd⟩ :=
        deliverLoop_fail e ctx fs job.Delivery t er h
      rw [h6] at hres
      injection hres with her
      subst her
      refine ⟨rfl,
        ⟨Event.load (mapGet job.DataSource "type") none ::
          Event.render job.TemplatePath none ::
          ((genLoop e ctx rendered job.Outputs []).2 ++ done), ?_, ?_⟩,
        k, hk, ?_⟩
      · simp [hdone, List.append_assoc]
      · intro x hx
        simp at hx
        rcases hx with hx | hx | hx | hx
        · subst hx; rfl
        · subst hx; rfl
        · exact hcleang x hx
        · exact hclean x hx
      · simp only [List.filterMap_cons, Event.deliverTag?, List.filterMap_append, hgt,
          List.nil_append]
        exact htagsd
  · rw [deliverLoop_ok e ctx files job.Delivery h6] at h
    rcases h with h | h
    · rcases genLoop_shape e ctx rendered job.Outputs [] _ h with ⟨n, f, hc⟩ | ⟨n, er1, hc⟩ <;>
        simp at hc
    · simp at h

/-- Witness for C7: in scenario S6 on `wEngine`, the `ok` delivery runs,
`fail` runs and fails the job, and `never` is never invoked. -/
theorem execute_delivery_failure_short_circuits_witness :
    (wEngine.execute () wJobS6).1 = .err (.msg "send failed") ∧
    (∃ done, (wEngine.execute () wJobS6).2 =
      done ++ [Event.deliver "fail" [wHtmlFile] (some (.msg "send failed"))] ∧
      ∀ x ∈ done, x.errOf = none) ∧
    ∃ k, k < wJobS6.Delivery.length ∧
      (wEngine.execute () wJobS6).2.filterMap Event.deliverTag? =
        (wJobS6.Delivery.take (k + 1)).map (fun c => mapGet c "type") :=
  execute_delivery_failure_short_circuits wEngine () wJobS6 "fail"
    [wHtmlFile] (.msg "send failed") (by decide)

/-- C8: when `DataSource["type"]` names no registered loader, the pipeline
fails with the no-loader error carrying that type, before invoking any
adapter (the trace is empty), so no output file is generated. -/
theorem execute_missing_loader_fails_before_any_adapter
    (e : Engine) (ctx : Ctx) (job : ReportJob)
    (h : List.lookup (mapGet job.DataSource "type") e.loaders = none) :
    e.execute ctx job =
      (.err (errNoLoader (mapGet job.DataSource "type")), []) := by
  simp [Engine.execute, h]

/-- Witness for C8: scenario S2 — `DataSource:{type:"sql"}` on an engine
with no loaders. -/
theorem execute_missing_loader_fails_before_any_adapter_witness :
    bareEngine.execute () sqlJob = (.err (errNoLoader "sql"), []) :=
  execute_missing_loader_fails_before_any_adapter bareEngine () sqlJob rfl

/-- C10: the render stage looks up the renderer under the fixed name
`"markdown"` without a comma-ok check; with no renderer registered under
that name and a successful load, the execution panics (a `Render` call on a
`nil` interface) rather than returning an error value as the
missing-loader, missing-output and missing-delivery cases do. -/
theorem execute_missing_renderer_panics
    (e : Engine) (ctx : Ctx) (job : ReportJob) (loader : DataLoader)
    (data : DataPayload)
    (h1 : List.lookup (mapGet job.DataSource "type") e.loaders = some loader)
    (h2 : loader.Load ctx job.DataSource = .ok data)
    (h3 : List.lookup "markdown" e.renderers = none) :
    e.execute ctx job = (.crash, [.load (mapGet job.DataSource "type") none]) ∧
    ∀ er, (e.execute ctx job).1 ≠ .err er := by
  have hx : e.execute ctx job =
      (.crash, [.load (mapGet job.DataSource "type") none]) := by
    simp [Engine.execute, h1, h2, h3]
  exact ⟨hx, fun er hc => by rw [hx] at hc; simp at hc⟩

/-- Witness for C10: an engine with a csv loader but no renderers. -/
theorem execute_missing_renderer_panics_witness :
    noRendererEngine.execute () wJobOk = (.crash, [.load "csv" none]) ∧
    ∀ er, (noRendererEngine.execute () wJobOk).1 ≠ .err er :=
  execute_missing_renderer_panics noRendererEngine () wJobOk csvLoader
    csvPayload rfl rfl rfl

/-- Counterexample to C2 as stated: with the cron parser accepting the
expression, `AddCronJob` of a job with `Timeout = 0` (and a parseable
six-field schedule) returns `nil` — the job is accepted, not rejected with
`ErrInvalidJob`; no job invariant other than the schedule is checked. -/
theorem addCronJob_accepts_zero_timeout :
    jobT0.Timeout = 0 ∧ Engine.addCronJob cronAccepts jobT0 = none := by decide

/-- C2 amended: `AddCronJob` validates only the schedule field — empty
schedule fails with the `"empty schedule"` error, any other schedule is
handed to the cron parser and its result returned; no other invariant of
the job (`Timeout` included) is inspected. -/
theorem addCronJob_validates_only_schedule
    (parse : String → Option GoError) (job : ReportJob) :
    (job.Schedule = "" → Engine.addCronJob parse job = some errEmptySchedule) ∧
    (job.Schedule ≠ "" → Engine.addCronJob parse job = parse job.Schedule) := by
  constructor <;> intro h <;> simp [Engine.addCronJob, h]

/-- Witness for the amended C2, at the `Timeout = 0` job. -/
theorem addCronJob_validates_only_schedule_witness :
    Engine.addCronJob cronAccepts jobT0 = cronAccepts jobT0.Schedule :=
  (addCronJob_validates_only_schedule cronAccepts jobT0).2 (by decide)

/-- Counterexample to C3 as stated: with the queue full, the schedule
firing's channel send does not complete — the timer goroutine blocks; the
firing is neither dropped nor counted (the `Engine` struct has no
missed-run counter). -/
theorem cronFire_blocks_on_full_queue : cronFire fullQ jobQ2 = none := by decide

/-- C3 amended: a schedule firing performs a plain blocking channel send on
the timer goroutine: with room in the queue the job is appended in FIFO
order; with the queue full the send blocks (it does not complete, drops
nothing, and counts nothing). -/
theorem cronFire_is_blocking_send (q : JobQueue) (j : ReportJob) :
    (q.buf.length < q.cap → cronFire q j = some ⟨q.buf ++ [j], q.cap⟩) ∧
    (¬ q.buf.length < q.cap → cronFire q j = none) := by
  constructor <;> intro h <;> simp [cronFire, chanSend, h]

/-- Witness for the amended C3: a firing into a queue with room appends. -/
theorem cronFire_is_blocking_send_witness :
    cronFire emptyQ jobQ = some ⟨[jobQ], 1⟩ :=
  (cronFire_is_blocking_send emptyQ jobQ).1 (by decide)

/-- Counterexample to C4 as stated: `Enqueue` on a full queue does not
return `ErrQueueFull` — it has no return value at all and its channel send
simply does not complete (the caller blocks). -/
theorem enqueue_blocks_on_full_queue : Engine.enqueue fullQ jobQ2 = none := by
  decide

/-- C4 amended: `Enqueue` is a bare blocking channel send with no return
value: with room the job is appended; on a full queue the caller blocks
until room appears; no `ErrQueueFull` or `ErrEngineStopped` is ever
returned and the stopped state is never consulted. -/
theorem enqueue_is_blocking_send (q : JobQueue) (j : ReportJob) :
    (q.buf.length < q.cap → Engine.enqueue q j = some ⟨q.buf ++ [j], q.cap⟩) ∧
    (¬ q.buf.length < q.cap → Engine.enqueue q j = none) := by
  constructor <;> intro h <;> simp [Engine.enqueue, chanSend, h]

/-- Witness for the amended C4: an enqueue into a queue with room. -/
theorem enqueue_is_blocking_send_witness :
    Engine.enqueue emptyQ jobQ2 = some ⟨[jobQ2], 1⟩ :=
  (enqueue_is_blocking_send emptyQ jobQ2).1 (by decide)

/-- Counterexample to C5 as stated: `Stop` completes (scheduler stopped,
stop channel closed) while a worker is still executing its job — `Stop`
does not wait for workers to exit their current executions. -/
theorem stop_returns_with_worker_still_executing :
    (Engine.stop busyState).workers = [.executing jobQ] ∧
    (Engine.stop busyState).stopChClosed = true ∧
    (Engine.stop busyState).schedStopped = true := by decide

/-- C5 amended: `Stop` stops the scheduler with its wait capped at 2
seconds, closes the stop channel (signalling the workers) and returns
immediately, leaving every worker state untouched; a worker inside an
execution cannot exit at that point — the worker loop observes the stop
signal only at its `select`, after finishing the current job. -/
theorem stop_signals_without_waiting_for_workers
    (s : EngineState) (cronDoneMs : Option Nat) (b : Bool) (q : JobQueue)
    (j : ReportJob) :
    Engine.stop s = { s with schedStopped := true, stopChClosed := true } ∧
    (Engine.stop s).workers = s.workers ∧
    stopGraceMs cronDoneMs ≤ 2000 ∧
    workerLoopStep b q (.executing j) = (.idle, q, false) := by
  refine ⟨rfl, rfl, ?_, rfl⟩
  cases cronDoneMs with
  | none => simp [stopGraceMs]
  | some t => simp [stopGraceMs]

/-- Counterexample to C9 as stated: the struct copied into the queue shares
its `DataSource` map with the caller, so an in-place mutation
`job.DataSource["type"] = "sql"` performed after submission is visible when
the in-flight execution dereferences the queued copy's map. -/
theorem queued_job_sees_callers_map_mutation :
    readMap (heapWrite heap0 jobRef0.DataSource "type" "sql")
        (sendJobCopy jobRef0).DataSource = [("type", "sql")] ∧
    readMap heap0 jobRef0.DataSource = [("type", "csv")] := by decide

/-- C9 amended: the channel send copies the `ReportJob` struct field-wise —
the copy is identical to the original, so its `DataSource`, `Delivery` and
`Labels` fields are references to the very same map objects; an in-place
update of such a map through the caller's reference is observed when the
queued copy's reference is dereferenced. -/
theorem sendJobCopy_shares_map_references
    (h : GoHeap) (j : ReportJobRef) (k v : String)
    (ha : j.DataSource < h.maps.length) :
    sendJobCopy j = j ∧
    readMap (heapWrite h j.DataSource k v) (sendJobCopy j).DataSource =
      mapPut (readMap h j.DataSource) k v := by
  refine ⟨rfl, ?_⟩
  simp [readMap, heapWrite, sendJobCopy, List.getD, List.getElem?_set_self, ha]

/-- Witness for the amended C9, on the two-object heap `heap0`. -/
theorem sendJobCopy_shares_map_references_witness :
    sendJobCopy jobRef0 = jobRef0 ∧
    readMap (heapWrite heap0 jobRef0.DataSource "type" "sql")
        (sendJobCopy jobRef0).DataSource =
      mapPut (readMap heap0 jobRef0.DataSource) "type" "sql" :=
  sendJobCopy_shares_map_references heap0 jobRef0 "type" "sql" (by decide)
